import Mathlib

/-!
Verification development for the Drawbridge real-time Excalidraw diagram
server (HTTP mutation API + WebSocket update channel, `server` source file)
and its DigitalOcean Spaces upload client (`lib/spaces-client.js`).

The JavaScript source is shallowly embedded: sessions, elements and
messages become Lean structures; each Express/WebSocket handler becomes a
pure function from the session state and the request to the new session
state, the list of messages sent (receiver id paired with payload) and the
HTTP response.  JavaScript `undefined`/non-array values that can reach
`session.elements` through the WebSocket `update` path are modelled by
`Option`: `none` stands for "not a JavaScript array".  The falsy-default
idiom `v || d` on numbers is modelled by `jsOr`, which maps both an absent
field and `0` to the default.
-/

/-- A drawing element as the server sees it: a `type` tag, the four numeric
fields read by viewport extraction (`none` = field absent), and an opaque
payload standing for all other properties of the JavaScript object. -/
structure Element where
  elType : String
  x : Option Int
  y : Option Int
  width : Option Int
  height : Option Int
  payload : Nat
deriving DecidableEq, Repr

/-- A camera rectangle `{x, y, width, height}` as built by the server. -/
structure Viewport where
  x : Int
  y : Int
  width : Int
  height : Int
deriving DecidableEq, Repr

/-- Opaque rendering-metadata blob (`appState`). -/
abbrev AppState := Nat

/-- JavaScript `v || d` on a numeric field: both an absent field and the
(falsy) number `0` yield the default `d`. -/
def jsOr (v : Option Int) (d : Int) : Int :=
  match v with
  | none => d
  | some n => if n = 0 then d else n

/-- Type-tag test from the extraction loop:
`el.type === 'cameraUpdate' || el.type === 'viewportUpdate'`. -/
def isCameraEl (el : Element) : Bool :=
  el.elType == "cameraUpdate" || el.elType == "viewportUpdate"

/-- The camera record the extraction loop pushes for one camera command:
`{ x: el.x || 0, y: el.y || 0, width: el.width || 800, height: el.height || 600 }`. -/
def elToViewport (el : Element) : Viewport :=
  ⟨jsOr el.x 0, jsOr el.y 0, jsOr el.width 800, jsOr el.height 600⟩

/-- `extractViewportUpdates(elements)`: one pass over the batch pushing
camera commands onto `viewports` and everything else onto `drawElements`,
both in input order. -/
def extractViewportUpdates : List Element → List Element × List Viewport
  | [] => ([], [])
  | el :: rest =>
    let r := extractViewportUpdates rest
    if isCameraEl el then (r.1, elToViewport el :: r.2)
    else (el :: r.1, r.2)

/-- A WebSocket connection registered to a session: its identity and its
`readyState`. -/
structure Conn where
  id : Nat
  readyState : Nat
deriving DecidableEq, Repr

/-- `WebSocket.OPEN`. -/
def WSOPEN : Nat := 1

/-- Session state: `{ elements, appState, viewport, clients }`.
`elements` is `some l` when it holds a JavaScript array and `none` when the
WebSocket `update` path stored a non-array value (`undefined`, a string,
...). -/
structure Session where
  elements : Option (List Element)
  appState : Option AppState
  viewport : Option Viewport
  clients : List Conn
deriving DecidableEq, Repr

/-- The session `getSession` creates:
`{ elements: [], appState: null, viewport: null, clients: new Set() }`. -/
def freshSession : Session :=
  ⟨some [], none, none, []⟩

/-- Server-to-client message payloads.  `elements` carries the (possibly
non-array) elements value and an optional `appState`; `append` carries the
delta; `viewport` a camera; `clear` nothing. -/
inductive OutMsg where
  | elements (els : Option (List Element)) (appState : Option AppState)
  | append (els : List Element)
  | viewport (v : Viewport)
  | clear
deriving DecidableEq, Repr

/-- The send loop of `broadcast`: deliver the payload to every OPEN
connection of the list, pairing each receiver id with the payload. -/
def sendAll (cl : List Conn) (m : OutMsg) : List (Nat × OutMsg) :=
  cl.filterMap (fun c =>
    if c.readyState = WSOPEN then some (c.id, m) else none)

/-- The send loop of the WebSocket `update` handler: every OPEN connection
of the list other than the sender. -/
def sendAllExcept (cl : List Conn) (sender : Nat) (m : OutMsg) :
    List (Nat × OutMsg) :=
  cl.filterMap (fun c =>
    if c.id ≠ sender ∧ c.readyState = WSOPEN then some (c.id, m) else none)

/-- `broadcast(session, msg)`: send to every client of the session whose
`readyState` is `OPEN`. -/
def broadcast (s : Session) (m : OutMsg) : List (Nat × OutMsg) :=
  sendAll s.clients m

/-- Parse result of one inbound WebSocket text frame.
`update els` is valid JSON whose `type` is `'update'`; `els = none` models
an `elements` field that is absent or not an array.  `otherShape` is valid
JSON with any other `type`.  `malformed` is text `JSON.parse` rejects. -/
inductive ClientMsg where
  | update (els : Option (List Element))
  | otherShape
  | malformed
deriving DecidableEq, Repr

/-- The `ws.on('message')` handler: an `update` replaces
`session.elements` with the message's `elements` value wholesale and sends
`{ type: 'elements', elements }` to every other OPEN client; any other
parse result is caught/ignored and changes nothing. -/
def wsMessage (s : Session) (sender : Nat) (m : ClientMsg) :
    Session × List (Nat × OutMsg) :=
  match m with
  | ClientMsg.update els =>
    ({ s with elements := els },
     sendAllExcept s.clients sender (OutMsg.elements els none))
  | ClientMsg.otherShape => (s, [])
  | ClientMsg.malformed => (s, [])

/-- Response of `POST /api/session/:id/elements`. -/
structure ElementsResp where
  success : Bool
  elementCount : Nat
  clients : Nat
deriving DecidableEq, Repr

/-- Response of `POST /api/session/:id/append`. -/
structure AppendResp where
  success : Bool
  elementCount : Nat
deriving DecidableEq, Repr

/-- Response of `POST /api/session/:id/viewport`. -/
structure ViewportResp where
  success : Bool
  viewport : Viewport
deriving DecidableEq, Repr

/-- Placeholder camera used with `getLastD` under a nonemptiness guard,
standing for `viewports[viewports.length - 1]`. -/
def defaultVp : Viewport := ⟨0, 0, 800, 600⟩

/-- `POST /api/session/:id/elements`: extract the batch (`elements || []`),
replace `session.elements` by the draw elements, update `appState` when the
body carries a truthy one, broadcast the full `elements` message, then, if
any camera command was extracted, persist and broadcast the last one. -/
def httpElements (s : Session) (bodyEls : Option (List Element))
    (bodyApp : Option AppState) :
    Session × List (Nat × OutMsg) × ElementsResp :=
  let p := extractViewportUpdates (bodyEls.getD [])
  let draw := p.1
  let vps := p.2
  let s1 : Session :=
    { s with elements := some draw,
             appState := match bodyApp with
                         | some a => some a
                         | none => s.appState }
  let m1 := broadcast s1 (OutMsg.elements (some draw) s1.appState)
  if vps.isEmpty then
    (s1, m1, ⟨true, draw.length, s1.clients.length⟩)
  else
    let v := vps.getLastD defaultVp
    ({ s1 with viewport := some v },
     m1 ++ broadcast s1 (OutMsg.viewport v),
     ⟨true, draw.length, s1.clients.length⟩)

/-- `POST /api/session/:id/append`.  Guard: the body's `elements` is
present and has nonzero `length`.  If so: extract; a nonempty draw delta is
concatenated onto `session.elements` (spreading a non-array throws, hence
`none`) and broadcast as an `append` message; a nonempty camera list
persists and broadcasts its last entry.  The response reads
`session.elements.length`, which throws on a non-array (`none` response,
mutations before the throw kept). -/
def httpAppend (s : Session) (body : Option (List Element)) :
    Session × List (Nat × OutMsg) × Option AppendResp :=
  let active : Bool := match body with
                       | some es => !es.isEmpty
                       | none => false
  if active then
    let p := extractViewportUpdates (body.getD [])
    let draw := p.1
    let vps := p.2
    match s.elements with
    | some cur =>
      let newEls := if draw.isEmpty then cur else cur ++ draw
      let s1 : Session := { s with elements := some newEls }
      let m1 := if draw.isEmpty then ([] : List (Nat × OutMsg))
                else broadcast s (OutMsg.append draw)
      let s2 := if vps.isEmpty then s1
                else { s1 with viewport := some (vps.getLastD defaultVp) }
      let m2 := if vps.isEmpty then ([] : List (Nat × OutMsg))
                else broadcast s (OutMsg.viewport (vps.getLastD defaultVp))
      (s2, m1 ++ m2, some ⟨true, newEls.length⟩)
    | none =>
      if draw.isEmpty then
        let s2 := if vps.isEmpty then s
                  else { s with viewport := some (vps.getLastD defaultVp) }
        let m2 := if vps.isEmpty then ([] : List (Nat × OutMsg))
                  else broadcast s (OutMsg.viewport (vps.getLastD defaultVp))
        (s2, m2, none)
      else
        (s, [], none)
  else
    match s.elements with
    | some cur => (s, [], some ⟨true, cur.length⟩)
    | none => (s, [], none)

/-- `POST /api/session/:id/viewport`: build the camera from the body with
falsy defaults, persist it and broadcast it. -/
def httpViewport (s : Session) (x y w h : Option Int) :
    Session × List (Nat × OutMsg) × ViewportResp :=
  let v : Viewport := ⟨jsOr x 0, jsOr y 0, jsOr w 800, jsOr h 600⟩
  ({ s with viewport := some v },
   broadcast s (OutMsg.viewport v),
   ⟨true, v⟩)

/-- `POST /api/session/:id/clear`: reset elements/appState/viewport and
broadcast `clear`. -/
def httpClear (s : Session) : Session × List (Nat × OutMsg) × Bool :=
  let s1 : Session := { s with elements := some [], appState := none, viewport := none }
  (s1, broadcast s1 OutMsg.clear, true)

/-- One mutating operation on a session, for reachability statements. -/
inductive Op where
  | replaceAll (bodyEls : Option (List Element)) (bodyApp : Option AppState)
  | append (body : Option (List Element))
  | clear
  | setViewport (x y w h : Option Int)
  | wsMsg (sender : Nat) (m : ClientMsg)
deriving DecidableEq, Repr

/-- State projection of one operation. -/
def applyOp (s : Session) : Op → Session
  | Op.replaceAll b a => (httpElements s b a).1
  | Op.append b => (httpAppend s b).1
  | Op.clear => (httpClear s).1
  | Op.setViewport x y w h => (httpViewport s x y w h).1
  | Op.wsMsg sender m => (wsMessage s sender m).1

/-- Run a sequence of operations. -/
def applyOps (s : Session) (ops : List Op) : Session :=
  ops.foldl applyOp s

/-- `session.elements` holds no camera pseudo-element (vacuously true when
a non-array value was stored). -/
def noCameraElems (s : Session) : Bool :=
  match s.elements with
  | none => true
  | some l => l.all (fun el => !isCameraEl el)

/-- An operation whose WebSocket `update` payload (when it is an array)
carries no camera pseudo-element; every HTTP operation qualifies. -/
def opOk : Op → Bool
  | Op.wsMsg _ (ClientMsg.update (some l)) => l.all (fun el => !isCameraEl el)
  | _ => true

/- Sample concrete elements used by several concrete statements. -/

/-- A concrete `cameraUpdate` pseudo-element. -/
def camA : Element := ⟨"cameraUpdate", some 10, some 20, some 300, some 200, 0⟩

/-- A concrete `viewportUpdate` pseudo-element. -/
def camB : Element := ⟨"viewportUpdate", some 5, none, some 640, some 480, 1⟩

/-- A concrete ordinary draw element. -/
def elD : Element := ⟨"rectangle", some 1, some 2, some 50, some 60, 2⟩

/-- A second concrete draw element. -/
def elE : Element := ⟨"arrow", some 7, some 8, some 90, some 10, 3⟩

/-!
Spaces upload client (`lib/spaces-client.js`).

The storage backend is modelled by the list of object keys already stored
(`st : List String`, in write order) plus the response of the
`HeadObjectCommand` existence check.  `uploadFileWith` is the body of
`uploadFile` for an arbitrary head response; `uploadFile` instantiates the
head response with the faithful backend, which finds exactly the stored
keys and answers `NotFound`/404 otherwise.
-/

/-- A line terminator for the purposes of the JavaScript regexp `.`
(which matches any character except these). -/
def isLineTerm (c : Char) : Bool :=
  c = '\n' || c = '\r' || c.val = 0x2028 || c.val = 0x2029

/-- The dataURL check `dataURL.match(/^data:[^;]+;base64,(.+)$/)`:
returns the captured base64 payload, or `none` when the regexp rejects. -/
def parseDataURL (s : String) : Option String :=
  let cs := s.toList
  if cs.take 5 = "data:".toList then
    let rest := cs.drop 5
    let mime := rest.takeWhile (fun c => c ≠ ';')
    let after := rest.drop mime.length
    if mime = [] then none
    else if after.take 8 = ";base64,".toList then
      let payload := after.drop 8
      if payload = [] ∨ payload.any isLineTerm then none
      else some (String.mk payload)
    else none
  else none

/-- The `MIME_EXTENSIONS` table with its `.bin` fallback. -/
def mimeExt (m : String) : String :=
  if m = "image/png" then ".png"
  else if m = "image/jpeg" then ".jpg"
  else if m = "image/jpg" then ".jpg"
  else if m = "image/gif" then ".gif"
  else if m = "image/svg+xml" then ".svg"
  else if m = "image/webp" then ".webp"
  else ".bin"

/-- The deterministic storage key `files/SESSION/FILEID.EXT`. -/
def fileKey (sessionId fileId mimeType : String) : String :=
  "files/" ++ sessionId ++ "/" ++ fileId ++ mimeExt mimeType

/-- Spaces configuration after a successful `initSpacesClient`. -/
structure SpacesConfig where
  bucket : String
  region : String
deriving DecidableEq, Repr

/-- `spacesConfig.cdnBase`. -/
def cdnBase (c : SpacesConfig) : String :=
  "https://" ++ c.bucket ++ "." ++ c.region ++ ".digitaloceanspaces.com"

/-- Outcome of the `HeadObjectCommand` existence check: success, or an
error carrying `err.name` and `err.$metadata?.httpStatusCode`. -/
inductive HeadResp where
  | found
  | err (name : String) (httpStatusCode : Option Nat)
deriving DecidableEq, Repr

/-- Result of one `uploadFile` call. -/
inductive UploadResult where
  | ok (url : String)
  | invalidDataURL
  | backendErr (name : String) (httpStatusCode : Option Nat)
deriving DecidableEq, Repr

/-- Body of `uploadFile(sessionId, fileId, dataURL, mimeType)` given the
head response of this call's existence check: reject a malformed dataURL
synchronously; on `found`, return the canonical URL without writing; on a
head error other than `NotFound`/404, rethrow; otherwise `PutObject` the
key and return the canonical URL.  Returns the storage state (keys in
write order) and the result. -/
def uploadFileWith (resp : HeadResp) (cfg : SpacesConfig) (st : List String)
    (sessionId fileId dataURL mimeType : String) :
    List String × UploadResult :=
  match parseDataURL dataURL with
  | none => (st, UploadResult.invalidDataURL)
  | some _ =>
    let key := fileKey sessionId fileId mimeType
    let url := cdnBase cfg ++ "/" ++ key
    match resp with
    | HeadResp.found => (st, UploadResult.ok url)
    | HeadResp.err name code =>
      if name ≠ "NotFound" ∧ code ≠ some 404 then
        (st, UploadResult.backendErr name code)
      else
        (st ++ [key], UploadResult.ok url)

/-- The faithful backend's head response: the key is found exactly when it
was stored, and is reported `NotFound` (HTTP 404) otherwise. -/
def faithfulHead (st : List String) (key : String) : HeadResp :=
  if key ∈ st then HeadResp.found else HeadResp.err "NotFound" (some 404)

/-- `uploadFile` against the faithful backend. -/
def uploadFile (cfg : SpacesConfig) (st : List String)
    (sessionId fileId dataURL mimeType : String) :
    List String × UploadResult :=
  uploadFileWith (faithfulHead st (fileKey sessionId fileId mimeType))
    cfg st sessionId fileId dataURL mimeType

/-!
Session registry and idle garbage collection.

The registry is the `sessions` map (an association list keyed by session
id) together with the set of pending `setTimeout` deletion checks, each
recorded as `(sessionId, fireAt)`.  Events are timestamped (milliseconds):
`touch` is any HTTP access through `getSession`; `connect`/`close` are the
WebSocket lifecycle; `fire sid sched` is the deletion timer scheduled for
absolute time `sched` actually firing.  A `fire` acts only if that timer
is pending and its time has come (a `setTimeout` callback runs once, never
early), removes the timer, re-reads the session from the map and deletes
it only when it exists with an empty client set.
-/

/-- `5 * 60 * 1000` milliseconds: the idle window before deletion. -/
def IDLEMS : Nat := 5 * 60 * 1000

/-- The registry: the sessions map and the pending deletion timers. -/
structure Reg where
  sessions : List (String × Session)
  timers : List (String × Nat)
deriving DecidableEq, Repr

/-- The empty registry at process start. -/
def regInit : Reg := ⟨[], []⟩

/-- `sessions.get(sid)` (first matching key of the association list). -/
def lookupSession (r : Reg) (sid : String) : Option Session :=
  (r.sessions.find? (fun p => p.1 == sid)).map Prod.snd

/-- `getSession(sid)`: create the session on first reference. -/
def regGet (r : Reg) (sid : String) : Reg :=
  match lookupSession r sid with
  | some _ => r
  | none => { r with sessions := r.sessions ++ [(sid, freshSession)] }

/-- Overwrite the state of an existing session (in-place mutation of the
object held by the map). -/
def setSession (r : Reg) (sid : String) (s : Session) : Reg :=
  { r with sessions := r.sessions.map (fun p => if p.1 == sid then (sid, s) else p) }

/-- `sessions.delete(sid)`. -/
def delSession (r : Reg) (sid : String) : Reg :=
  { r with sessions := r.sessions.filter (fun p => !(p.1 == sid)) }

/-- Timestamped registry events. -/
inductive GEvent where
  | touch (sid : String)
  | connect (sid : String) (cid : Nat)
  | close (sid : String) (cid : Nat)
  | fire (sid : String) (sched : Nat)
deriving DecidableEq, Repr

/-- An HTTP access through `getSession`. -/
def gTouch (r : Reg) (sid : String) : Reg := regGet r sid

/-- The WebSocket upgrade handler: `getSession` then add the connection to
the session's client set. -/
def gConnect (r : Reg) (sid : String) (cid : Nat) : Reg :=
  let r1 := regGet r sid
  match lookupSession r1 sid with
  | some s => setSession r1 sid { s with clients := s.clients ++ [⟨cid, WSOPEN⟩] }
  | none => r1

/-- The `ws.on('close')` handler at time `t`: drop the connection from the
client set; when the set becomes empty, schedule a deletion check for
`t + IDLEMS`. -/
def gClose (r : Reg) (sid : String) (cid : Nat) (t : Nat) : Reg :=
  match lookupSession r sid with
  | none => r
  | some s =>
    let s1 : Session := { s with clients := s.clients.filter (fun c => !(c.id == cid)) }
    let r1 := setSession r sid s1
    if s1.clients.isEmpty then
      { r1 with timers := r1.timers ++ [(sid, t + IDLEMS)] }
    else r1

/-- The deletion-timer callback at time `t`: it acts only if the timer is
pending and due, removes it, re-reads the session from the map and deletes
it only when it exists with an empty client set. -/
def gFire (r : Reg) (sid : String) (sched t : Nat) : Reg :=
  if (sid, sched) ∈ r.timers ∧ sched ≤ t then
    let r1 : Reg := { r with timers := r.timers.erase (sid, sched) }
    match lookupSession r1 sid with
    | some s => if s.clients.isEmpty then delSession r1 sid else r1
    | none => r1
  else r

/-- One registry step at absolute time `t` (the first component). -/
def gstep (r : Reg) (te : Nat × GEvent) : Reg :=
  match te with
  | (_, GEvent.touch sid) => gTouch r sid
  | (_, GEvent.connect sid cid) => gConnect r sid cid
  | (t, GEvent.close sid cid) => gClose r sid cid t
  | (t, GEvent.fire sid sched) => gFire r sid sched t

/-- Run a timestamped event trace. -/
def grun (r : Reg) (tr : List (Nat × GEvent)) : Reg :=
  tr.foldl gstep r

/-- An event mentioning the given session id (used to delimit trace
segments that leave that session alone). -/
def mentionsSid (sid : String) : GEvent → Bool
  | GEvent.touch s => s == sid
  | GEvent.connect s _ => s == sid
  | GEvent.close s _ => s == sid
  | GEvent.fire s _ => s == sid

/-- Recognizer for `viewport` messages (to isolate the viewport traffic of
one handler call). -/
def isVpMsg : OutMsg → Bool
  | OutMsg.viewport _ => true
  | _ => false

/- Basic characterizations of the extraction pass. -/

theorem extract_fst_eq_filter (es : List Element) :
    (extractViewportUpdates es).1 = es.filter (fun el => !isCameraEl el) := by
  induction es with
  | nil => rfl
  | cons el rest ih =>
    simp only [extractViewportUpdates, List.filter]
    cases h : isCameraEl el <;> simp [h, ih]

theorem extract_snd_eq_filter_map (es : List Element) :
    (extractViewportUpdates es).2 = (es.filter isCameraEl).map elToViewport := by
  induction es with
  | nil => rfl
  | cons el rest ih =>
    simp only [extractViewportUpdates, List.filter]
    cases h : isCameraEl el <;> simp [h, ih]

theorem extract_of_no_camera (es : List Element)
    (h : ∀ el ∈ es, isCameraEl el = false) :
    extractViewportUpdates es = (es, []) := by
  have h1 := extract_fst_eq_filter es
  have h2 := extract_snd_eq_filter_map es
  rw [List.filter_eq_self.2 (by intro el hel; simp [h el hel])] at h1
  rw [List.filter_eq_nil_iff.2 (by intro el hel; simp [h el hel])] at h2
  exact Prod.ext h1 (by simp [h2])

theorem extract_of_all_camera (es : List Element)
    (h : ∀ el ∈ es, isCameraEl el = true) :
    extractViewportUpdates es = ([], es.map elToViewport) := by
  have h1 := extract_fst_eq_filter es
  have h2 := extract_snd_eq_filter_map es
  rw [List.filter_eq_nil_iff.2 (by intro el hel; simp [h el hel])] at h1
  rw [List.filter_eq_self.2 (by intro el hel; simp [h el hel])] at h2
  exact Prod.ext h1 h2

/-- C7: the viewport extraction function is pure (in this embedding it is
a function of its input, mirroring a source loop that only reads the
input's fields), and its `drawElements` component is exactly the
order-preserving sublist of the input made of the elements whose type tag
is neither `cameraUpdate` nor `viewportUpdate`. -/
theorem claim7_extract_pure_order_filter :
    ∀ es : List Element,
      (extractViewportUpdates es).1 = es.filter (fun el => !isCameraEl el) ∧
      (extractViewportUpdates es).1.Sublist es := by
  intro es
  refine ⟨extract_fst_eq_filter es, ?_⟩
  rw [extract_fst_eq_filter es]
  exact List.filter_sublist es

/-- C8 counterexample: the frame `{"type":"update"}` is valid JSON of an
unexpected shape (its `elements` field is absent), yet the handler does
not drop it: it replaces `session.elements` (which was the array `[]`)
with the non-array value `undefined`, so the session state changes. -/
theorem claim8_counterexample :
    freshSession.elements = some [] ∧
    (wsMessage freshSession 1 (ClientMsg.update none)).1.elements = none ∧
    (wsMessage freshSession 1 (ClientMsg.update none)).1 ≠ freshSession := by
  decide

/-- C8 (amended): an inbound frame that is not valid JSON, or is valid
JSON whose `type` is not `'update'`, is dropped: the handler returns the
session unchanged (elements, appState, viewport and client set included,
so the connection also stays registered) and sends nothing.  (Frames with
`type 'update'` are honored whatever the shape of their `elements`
field.) -/
theorem claim8_amended_bad_payload_dropped :
    ∀ (s : Session) (sender : Nat),
      wsMessage s sender ClientMsg.malformed = (s, []) ∧
      wsMessage s sender ClientMsg.otherShape = (s, []) := by
  intro s sender
  exact ⟨rfl, rfl⟩

/-- C9: a numeric camera field that is present with value `0` is treated
exactly like an absent field — `v || d` yields the default — so a camera
command or a `POST /viewport` body with `width: 0` persists and broadcasts
a viewport with width `800` (and the defaults are `x=0, y=0, width=800,
height=600`). -/
theorem claim9_zero_fields_defaulted :
    ∀ (el : Element) (s : Session) (x y h : Option Int) (d : Int),
      jsOr (some 0) d = d ∧
      jsOr none d = d ∧
      elToViewport { el with width := some 0 } = elToViewport { el with width := none } ∧
      (httpViewport s x y (some 0) h).1.viewport =
        some ⟨jsOr x 0, jsOr y 0, 800, jsOr h 600⟩ ∧
      (httpViewport s x y (some 0) h).2.1 =
        broadcast s (OutMsg.viewport ⟨jsOr x 0, jsOr y 0, 800, jsOr h 600⟩) ∧
      (extractViewportUpdates [{ el with elType := "cameraUpdate", width := some 0 }]).2 =
        [⟨jsOr el.x 0, jsOr el.y 0, 800, jsOr el.height 600⟩] := by
  intro el s x y h d
  refine ⟨rfl, rfl, by simp [elToViewport, jsOr], ?_, ?_, ?_⟩
  · simp [httpViewport, jsOr]
  · simp [httpViewport, jsOr]
  · simp [extractViewportUpdates, isCameraEl, elToViewport, jsOr]

/- Shape lemmas for the HTTP handlers' element state. -/

theorem extract_fst_all_no_camera (es : List Element) :
    (extractViewportUpdates es).1.all (fun el => !isCameraEl el) = true := by
  rw [extract_fst_eq_filter, List.all_eq_true]
  intro el hel
  exact (List.mem_filter.mp hel).2

theorem httpElements_fst_elements (s : Session) (b : Option (List Element))
    (a : Option AppState) :
    (httpElements s b a).1.elements = some ((extractViewportUpdates (b.getD [])).1) := by
  by_cases hv : (extractViewportUpdates (b.getD [])).2.isEmpty <;>
    simp [httpElements, hv]

theorem httpAppend_fst_elements (s : Session) (b : Option (List Element)) :
    (httpAppend s b).1.elements = s.elements ∨
    ∃ cur, s.elements = some cur ∧
      (httpAppend s b).1.elements =
        some (cur ++ (extractViewportUpdates (b.getD [])).1) := by
  match b with
  | none =>
    left
    cases h : s.elements <;> simp [httpAppend, h]
  | some es =>
    cases he : es.isEmpty with
    | true =>
      left
      cases h : s.elements <;> simp [httpAppend, he, h]
    | false =>
      cases h : s.elements with
      | none =>
        left
        simp only [httpAppend, he, h]
        split_ifs <;> simp [h]
      | some cur =>
        right
        refine ⟨cur, rfl, ?_⟩
        simp only [httpAppend, he, h]
        split_ifs <;> simp_all [List.isEmpty_iff]

theorem applyOp_preserves_noCamera (s : Session) (op : Op)
    (hs : noCameraElems s = true) (hop : opOk op = true) :
    noCameraElems (applyOp s op) = true := by
  cases op with
  | replaceAll b a =>
    have h := httpElements_fst_elements s b a
    show noCameraElems (httpElements s b a).1 = true
    simp [noCameraElems, h, extract_fst_all_no_camera]
  | append b =>
    show noCameraElems (httpAppend s b).1 = true
    rcases httpAppend_fst_elements s b with h | ⟨cur, hcur, h⟩
    · simp only [noCameraElems, h]
      simpa only [noCameraElems] using hs
    · simp only [noCameraElems, h, List.all_append, Bool.and_eq_true]
      constructor
      · simpa only [noCameraElems, hcur] using hs
      · exact extract_fst_all_no_camera _
  | clear =>
    show noCameraElems (httpClear s).1 = true
    rfl
  | setViewport x y w h =>
    show noCameraElems (httpViewport s x y w h).1 = true
    exact hs
  | wsMsg sender m =>
    cases m with
    | update els =>
      cases els with
      | none => rfl
      | some l => exact hop
    | otherShape => exact hs
    | malformed => exact hs

/-- C1 counterexample: a single WebSocket `update` carrying a
`cameraUpdate` pseudo-element is a reachable operation sequence, and it
leaves that pseudo-element in `session.elements` — the WebSocket path does
not strip camera commands. -/
theorem claim1_counterexample :
    (applyOps freshSession [Op.wsMsg 7 (ClientMsg.update (some [camA]))]).elements
      = some [camA] ∧ isCameraEl camA = true := by
  decide

/-- C1 (amended): along any sequence of HTTP replace-all, HTTP append, HTTP
clear, HTTP set-viewport and WebSocket operations in which every WebSocket
`update` payload that is an element array is itself free of camera
pseudo-elements, the session's elements never contain an element tagged
`cameraUpdate` or `viewportUpdate` (the HTTP paths strip them; the
WebSocket path stores its payload unfiltered). -/
theorem claim1_amended_elements_camera_free
    (ops : List Op) (hops : ∀ op ∈ ops, opOk op = true) :
    noCameraElems (applyOps freshSession ops) = true := by
  have gen : ∀ (l : List Op) (s : Session), noCameraElems s = true →
      (∀ op ∈ l, opOk op = true) → noCameraElems (applyOps s l) = true := by
    intro l
    induction l with
    | nil => intro s hs _; exact hs
    | cons op rest ih =>
      intro s hs h
      exact ih (applyOp s op)
        (applyOp_preserves_noCamera s op hs (h op (by simp)))
        (fun o ho => h o (by simp [ho]))
  exact gen ops freshSession rfl hops

/-- C1 witness: a concrete mixed operation sequence satisfying the
hypothesis, with the invariant evaluated at the result. -/
theorem claim1_witness :
    noCameraElems (applyOps freshSession
      [Op.replaceAll (some [camA, elD]) none,
       Op.append (some [elE, camB]),
       Op.wsMsg 3 (ClientMsg.update (some [elD, elE])),
       Op.setViewport (some 1) none (some 0) none,
       Op.clear]) = true :=
  claim1_amended_elements_camera_free
    [Op.replaceAll (some [camA, elD]) none,
     Op.append (some [elE, camB]),
     Op.wsMsg 3 (ClientMsg.update (some [elD, elE])),
     Op.setViewport (some 1) none (some 0) none,
     Op.clear] (by decide)

/-- One camera-free append on a well-formed session: concatenation onto
the scene, an `append` broadcast carrying exactly the delta (none when the
delta is empty), and a success response with the new count. -/
theorem httpAppend_no_camera_step (s : Session) (cur E : List Element)
    (hcur : s.elements = some cur) (hE : ∀ el ∈ E, isCameraEl el = false) :
    (httpAppend s (some E)).1 = { s with elements := some (cur ++ E) } ∧
    (httpAppend s (some E)).2.1 =
      (if E.isEmpty then [] else broadcast s (OutMsg.append E)) ∧
    (httpAppend s (some E)).2.2 = some ⟨true, (cur ++ E).length⟩ := by
  have hx := extract_of_no_camera E hE
  cases he : E.isEmpty with
  | true =>
    have hE0 : E = [] := List.isEmpty_iff.mp he
    subst hE0
    obtain ⟨els, app, vp, cl⟩ := s
    simp only [Session.mk.injEq] at hcur ⊢
    simp [httpAppend, hcur]
  | false =>
    simp [httpAppend, he, hcur, hx]

/-- C5: starting from an empty scene, appending the camera-free batches
`E1` then `E2` leaves `elements = E1 ++ E2` in that order, and each
nonempty append broadcasts one `append` message to the session carrying
exactly its own delta (never the accumulated scene). -/
theorem claim5_append_order_and_delta
    (s : Session) (E1 E2 : List Element)
    (h0 : s.elements = some [])
    (h1 : ∀ el ∈ E1, isCameraEl el = false)
    (h2 : ∀ el ∈ E2, isCameraEl el = false) :
    (httpAppend (httpAppend s (some E1)).1 (some E2)).1.elements = some (E1 ++ E2) ∧
    (E1 ≠ [] → (httpAppend s (some E1)).2.1 = broadcast s (OutMsg.append E1)) ∧
    (E2 ≠ [] →
      (httpAppend (httpAppend s (some E1)).1 (some E2)).2.1 =
        broadcast s (OutMsg.append E2)) := by
  obtain ⟨st1, br1, -⟩ := httpAppend_no_camera_step s [] E1 h0 h1
  have hcur1 : (httpAppend s (some E1)).1.elements = some ([] ++ E1) := by
    rw [st1]
  obtain ⟨st2, br2, -⟩ :=
    httpAppend_no_camera_step (httpAppend s (some E1)).1 ([] ++ E1) E2 hcur1 h2
  refine ⟨?_, ?_, ?_⟩
  · rw [st2]; simp
  · intro hne
    rw [br1, if_neg (by simpa [List.isEmpty_iff] using hne)]
  · intro hne
    rw [br2, if_neg (by simpa [List.isEmpty_iff] using hne), st1]
    rfl

/-- C5 witness: two concrete one-element appends on a fresh session. -/
theorem claim5_witness :
    (httpAppend (httpAppend freshSession (some [elD])).1 (some [elE])).1.elements
        = some ([elD] ++ [elE]) ∧
    ([elD] ≠ [] →
      (httpAppend freshSession (some [elD])).2.1 =
        broadcast freshSession (OutMsg.append [elD])) ∧
    ([elE] ≠ [] →
      (httpAppend (httpAppend freshSession (some [elD])).1 (some [elE])).2.1 =
        broadcast freshSession (OutMsg.append [elE])) :=
  claim5_append_order_and_delta freshSession [elD] [elE] rfl
    (by decide) (by decide)

/-- C10: an append whose body has no `elements` or an empty batch is a
complete no-op that still responds success with the unchanged count; a
nonempty camera-only batch leaves `elements` untouched, sends no `append`
broadcast, persists and broadcasts the last camera command, and responds
success with the unchanged count. -/
theorem claim10_append_noop_camera_only
    (s : Session) (cur es : List Element)
    (hcur : s.elements = some cur)
    (hcam : ∀ el ∈ es, isCameraEl el = true)
    (hne : es ≠ []) :
    httpAppend s none = (s, [], some ⟨true, cur.length⟩) ∧
    httpAppend s (some []) = (s, [], some ⟨true, cur.length⟩) ∧
    (httpAppend s (some es)).1.elements = s.elements ∧
    (httpAppend s (some es)).1.viewport =
      some ((es.map elToViewport).getLastD defaultVp) ∧
    (httpAppend s (some es)).2.1 =
      broadcast s (OutMsg.viewport ((es.map elToViewport).getLastD defaultVp)) ∧
    (httpAppend s (some es)).2.2 = some ⟨true, cur.length⟩ := by
  have hx := extract_of_all_camera es hcam
  have hmap : es.map elToViewport ≠ [] := by
    simpa using hne
  have hee : es.isEmpty = false := by
    simpa [List.isEmpty_iff] using hne
  refine ⟨by simp [httpAppend, hcur], by simp [httpAppend, hcur], ?_, ?_, ?_, ?_⟩ <;>
    simp [httpAppend, hee, hcur, hx, hmap, List.isEmpty_iff]

/-- C10 witness: a fresh session, an absent body, an empty batch and the
camera-only batch `[camA, camB]`. -/
theorem claim10_witness :
    httpAppend freshSession none = (freshSession, [], some ⟨true, List.length ([] : List Element)⟩) ∧
    httpAppend freshSession (some []) = (freshSession, [], some ⟨true, List.length ([] : List Element)⟩) ∧
    (httpAppend freshSession (some [camA, camB])).1.elements = freshSession.elements ∧
    (httpAppend freshSession (some [camA, camB])).1.viewport =
      some (([camA, camB].map elToViewport).getLastD defaultVp) ∧
    (httpAppend freshSession (some [camA, camB])).2.1 =
      broadcast freshSession
        (OutMsg.viewport (([camA, camB].map elToViewport).getLastD defaultVp)) ∧
    (httpAppend freshSession (some [camA, camB])).2.2 = some ⟨true, List.length ([] : List Element)⟩ :=
  claim10_append_noop_camera_only freshSession [] [camA, camB] rfl
    (by decide) (by decide)

/-- Filtering the messages of one send loop by a payload predicate keeps
all of them or none: every message of the loop carries the same payload. -/
theorem sendAll_filter (cl : List Conn) (m : OutMsg) (q : OutMsg → Bool) :
    (sendAll cl m).filter (fun p => q p.2) = if q m then sendAll cl m else [] := by
  induction cl with
  | nil => simp [sendAll]
  | cons c rest ih =>
    simp only [sendAll, List.filterMap_cons] at ih ⊢
    by_cases hr : c.readyState = WSOPEN
    · rw [if_pos hr, List.filter_cons]
      by_cases hq : q m <;> simp [hq, ih]
    · rw [if_neg hr, ih]

/-- Message shape of one replace-all call: the full `elements` broadcast,
then the `viewport` broadcast of the last extracted camera command when
one exists. -/
theorem httpElements_msgs (s : Session) (b : Option (List Element))
    (a : Option AppState) :
    (httpElements s b a).2.1 =
      sendAll s.clients (OutMsg.elements (some ((extractViewportUpdates (b.getD [])).1))
          ((httpElements s b a).1.appState)) ++
      (if (extractViewportUpdates (b.getD [])).2.isEmpty then ([] : List (Nat × OutMsg))
       else sendAll s.clients
         (OutMsg.viewport ((extractViewportUpdates (b.getD [])).2.getLastD defaultVp))) := by
  by_cases hv : (extractViewportUpdates (b.getD [])).2.isEmpty <;>
    simp [httpElements, hv, broadcast]

/-- Message shape of one append call on a well-formed session with a
nonempty batch: the `append` broadcast of the draw delta when it is
nonempty, then the `viewport` broadcast of the last camera command when
one exists. -/
theorem httpAppend_msgs (s : Session) (es cur : List Element)
    (hcur : s.elements = some cur) (hee : es.isEmpty = false) :
    (httpAppend s (some es)).2.1 =
      (if (extractViewportUpdates es).1.isEmpty then ([] : List (Nat × OutMsg))
       else sendAll s.clients (OutMsg.append (extractViewportUpdates es).1)) ++
      (if (extractViewportUpdates es).2.isEmpty then ([] : List (Nat × OutMsg))
       else sendAll s.clients
         (OutMsg.viewport ((extractViewportUpdates es).2.getLastD defaultVp))) := by
  by_cases hd : (extractViewportUpdates es).1.isEmpty <;>
    by_cases hv : (extractViewportUpdates es).2.isEmpty <;>
      simp [httpAppend, hee, hcur, hd, hv, broadcast]

/-- C6: when a batch submitted to HTTP replace-all or HTTP append extracts
at least one camera command, the session's persisted viewport is the last
extracted camera command, the viewport traffic of the call is exactly one
broadcast of that last command (earlier camera commands are never sent),
the extracted camera list is the in-order image of the batch's camera
elements (so "last extracted" is "last in the original batch"), and
concretely `extract([camA, elD, camB])` yields draw elements `[elD]` with
`camB`'s viewport last. -/
theorem claim6_last_camera_command_wins
    (s : Session) (es cur : List Element) (app : Option AppState)
    (hcur : s.elements = some cur)
    (hvp : (extractViewportUpdates es).2 ≠ []) :
    (httpElements s (some es) app).1.viewport =
      some ((extractViewportUpdates es).2.getLastD defaultVp) ∧
    (httpElements s (some es) app).2.1.filter (fun p => isVpMsg p.2) =
      broadcast s (OutMsg.viewport ((extractViewportUpdates es).2.getLastD defaultVp)) ∧
    (httpAppend s (some es)).1.viewport =
      some ((extractViewportUpdates es).2.getLastD defaultVp) ∧
    (httpAppend s (some es)).2.1.filter (fun p => isVpMsg p.2) =
      broadcast s (OutMsg.viewport ((extractViewportUpdates es).2.getLastD defaultVp)) ∧
    (extractViewportUpdates es).2 = (es.filter isCameraEl).map elToViewport ∧
    extractViewportUpdates [camA, elD, camB] =
      ([elD], [elToViewport camA, elToViewport camB]) ∧
    [elToViewport camA, elToViewport camB].getLastD defaultVp = elToViewport camB := by
  have hvpe : (extractViewportUpdates es).2.isEmpty = false := by
    simpa [List.isEmpty_iff] using hvp
  have hee : es.isEmpty = false := by
    rw [List.isEmpty_eq_false]
    intro h0
    exact hvp (by rw [h0]; rfl)
  have hvn : ¬((extractViewportUpdates es).2.isEmpty = true) := by
    simp [hvpe]
  refine ⟨?_, ?_, ?_, ?_, extract_snd_eq_filter_map es, by decide, by decide⟩
  · simp [httpElements, hvpe]
  · rw [httpElements_msgs, List.filter_append, if_neg (by simpa using hvn),
      sendAll_filter, sendAll_filter, if_neg (by simp [isVpMsg]),
      if_pos (by simp [isVpMsg]), List.nil_append]
    rfl
  · by_cases hd : (extractViewportUpdates es).1.isEmpty <;>
      simp [httpAppend, hee, hcur, hd, hvpe]
  · rw [httpAppend_msgs s es cur hcur hee, List.filter_append]
    by_cases hd : (extractViewportUpdates es).1.isEmpty
    · rw [if_pos hd, if_neg hvn, List.filter_nil, List.nil_append, sendAll_filter,
        if_pos (by simp [isVpMsg])]
      rfl
    · rw [if_neg hd, if_neg hvn, sendAll_filter, sendAll_filter,
        if_neg (by simp [isVpMsg]), if_pos (by simp [isVpMsg]), List.nil_append]
      rfl

/-- C6 witness: the tie-break batch `[camA, elD, camB]` replacing the
scene of a two-client session persists `camB`'s viewport. -/
theorem claim6_witness :
    (httpElements ⟨some [], none, none, [⟨1, 1⟩, ⟨2, 0⟩]⟩ (some [camA, elD, camB]) none).1.viewport =
      some ((extractViewportUpdates [camA, elD, camB]).2.getLastD defaultVp) :=
  (claim6_last_camera_command_wins ⟨some [], none, none, [⟨1, 1⟩, ⟨2, 0⟩]⟩
    [camA, elD, camB] [] none rfl (by decide)).1

/-- Every message produced by the `update` send loop carries the loop's
payload and is addressed to a connection other than the sender. -/
theorem sendAllExcept_mem (cl : List Conn) (sender : Nat) (m : OutMsg)
    (p : Nat × OutMsg) (hp : p ∈ sendAllExcept cl sender m) :
    p.2 = m ∧ p.1 ≠ sender := by
  unfold sendAllExcept at hp
  rw [List.mem_filterMap] at hp
  obtain ⟨c, -, hc⟩ := hp
  by_cases h : c.id ≠ sender ∧ c.readyState = WSOPEN
  · rw [if_pos h] at hc
    cases hc
    exact ⟨rfl, h.1⟩
  · rw [if_neg h] at hc
    cases hc

/-- A connection id absent from the list receives nothing from the
`update` send loop. -/
theorem sendAllExcept_count_zero (cl : List Conn) (sender i : Nat) (m : OutMsg)
    (hi : i ∉ cl.map Conn.id) :
    (sendAllExcept cl sender m).count (i, m) = 0 := by
  induction cl with
  | nil => rfl
  | cons c rest ih =>
    have hir : i ∉ rest.map Conn.id := fun h => hi (by simp [h])
    have hic : ¬(c.id = i) := fun h => hi (by simp [h])
    unfold sendAllExcept at ih ⊢
    rw [List.filterMap_cons]
    by_cases h : c.id ≠ sender ∧ c.readyState = WSOPEN
    · rw [if_pos h, List.count_cons, ih hir]
      simp [Prod.ext_iff, hic]
    · rw [if_neg h]
      exact ih hir

/-- With distinct connection ids, an OPEN non-sender connection receives
the `update` payload exactly once. -/
theorem sendAllExcept_count_one (cl : List Conn) (sender : Nat) (m : OutMsg)
    (hnodup : (cl.map Conn.id).Nodup) (c : Conn) (hc : c ∈ cl)
    (hs : c.id ≠ sender) (ho : c.readyState = WSOPEN) :
    (sendAllExcept cl sender m).count (c.id, m) = 1 := by
  induction cl with
  | nil => cases hc
  | cons a rest ih =>
    rw [List.map_cons, List.nodup_cons] at hnodup
    rcases List.mem_cons.mp hc with rfl | hcr
    · have h0 : (sendAllExcept rest sender m).count (c.id, m) = 0 :=
        sendAllExcept_count_zero rest sender c.id m hnodup.1
      unfold sendAllExcept at h0 ⊢
      rw [List.filterMap_cons, if_pos ⟨hs, ho⟩, List.count_cons, h0]
      simp
    · have haid : ¬(a.id = c.id) := by
        intro h
        exact hnodup.1 (h ▸ List.mem_map_of_mem Conn.id hcr)
      have hrest := ih hnodup.2 hcr
      unfold sendAllExcept at hrest ⊢
      rw [List.filterMap_cons]
      by_cases h : a.id ≠ sender ∧ a.readyState = WSOPEN
      · rw [if_pos h, List.count_cons, hrest]
        simp [Prod.ext_iff, haid]
      · rw [if_neg h]
        exact hrest

/-- C3: a WebSocket `update` carrying the array `E` replaces the session's
elements wholesale (no merge; appState, viewport and the client set are
untouched), every message it sends carries exactly the `elements`-message
of `E` and is addressed to a connection other than the sender, and — the
client set being a set (distinct ids) — every other OPEN connection
receives that message exactly once. -/
theorem claim3_update_replaces_and_broadcasts_once
    (s : Session) (sender : Nat) (E : List Element)
    (hnodup : (s.clients.map Conn.id).Nodup) :
    (wsMessage s sender (ClientMsg.update (some E))).1.elements = some E ∧
    (wsMessage s sender (ClientMsg.update (some E))).1.appState = s.appState ∧
    (wsMessage s sender (ClientMsg.update (some E))).1.viewport = s.viewport ∧
    (wsMessage s sender (ClientMsg.update (some E))).1.clients = s.clients ∧
    (∀ p ∈ (wsMessage s sender (ClientMsg.update (some E))).2,
      p.2 = OutMsg.elements (some E) none ∧ p.1 ≠ sender) ∧
    (∀ c ∈ s.clients, c.id ≠ sender → c.readyState = WSOPEN →
      (wsMessage s sender (ClientMsg.update (some E))).2.count
        (c.id, OutMsg.elements (some E) none) = 1) := by
  refine ⟨rfl, rfl, rfl, rfl, ?_, ?_⟩
  · intro p hp
    exact sendAllExcept_mem s.clients sender (OutMsg.elements (some E) none) p hp
  · intro c hc hs ho
    exact sendAllExcept_count_one s.clients sender
      (OutMsg.elements (some E) none) hnodup c hc hs ho

/-- C3 witness: a three-client session (ids 1, 2, 3; client 3 not OPEN)
where client 2 sends the update: client 1 gets exactly one `elements`
message. -/
theorem claim3_witness :
    (wsMessage ⟨some [], none, none, [⟨1, 1⟩, ⟨2, 1⟩, ⟨3, 0⟩]⟩ 2
      (ClientMsg.update (some [elD]))).2.count
      ((⟨1, 1⟩ : Conn).id, OutMsg.elements (some [elD]) none) = 1 :=
  (claim3_update_replaces_and_broadcasts_once
    ⟨some [], none, none, [⟨1, 1⟩, ⟨2, 1⟩, ⟨3, 0⟩]⟩ 2 [elD]
    (by decide)).2.2.2.2.2 ⟨1, 1⟩ (by decide) (by decide) (by decide)

/-- C2: for a well-formed base64 dataURL, two identical `uploadFile` calls
both return the canonical URL of the deterministic key; the existence
check short-circuits (a key already stored is never rewritten), the two
calls together perform at most one object write (none when the key was
already stored, exactly one otherwise — and the second call never
writes), and an existence-check error whose name is not `NotFound` and
whose HTTP status is not 404 propagates as a failure without writing. -/
theorem claim2_upload_idempotent_dedup
    (cfg : SpacesConfig) (st0 : List String)
    (sessionId fileId dataURL mimeType : String)
    (hwf : (parseDataURL dataURL).isSome = true) :
    (uploadFile cfg st0 sessionId fileId dataURL mimeType).2 =
      UploadResult.ok (cdnBase cfg ++ "/" ++ fileKey sessionId fileId mimeType) ∧
    (uploadFile cfg (uploadFile cfg st0 sessionId fileId dataURL mimeType).1
        sessionId fileId dataURL mimeType).2 =
      UploadResult.ok (cdnBase cfg ++ "/" ++ fileKey sessionId fileId mimeType) ∧
    (uploadFile cfg (uploadFile cfg st0 sessionId fileId dataURL mimeType).1
        sessionId fileId dataURL mimeType).1 =
      (uploadFile cfg st0 sessionId fileId dataURL mimeType).1 ∧
    (fileKey sessionId fileId mimeType ∈ st0 →
      (uploadFile cfg st0 sessionId fileId dataURL mimeType).1 = st0) ∧
    (fileKey sessionId fileId mimeType ∉ st0 →
      (uploadFile cfg st0 sessionId fileId dataURL mimeType).1 =
        st0 ++ [fileKey sessionId fileId mimeType]) ∧
    (∀ (name : String) (code : Option Nat), name ≠ "NotFound" → code ≠ some 404 →
      uploadFileWith (HeadResp.err name code) cfg st0 sessionId fileId dataURL mimeType
        = (st0, UploadResult.backendErr name code)) := by
  obtain ⟨payload, hp⟩ := Option.isSome_iff_exists.mp hwf
  by_cases hk : fileKey sessionId fileId mimeType ∈ st0
  · have h1 : uploadFile cfg st0 sessionId fileId dataURL mimeType =
        (st0, UploadResult.ok (cdnBase cfg ++ "/" ++ fileKey sessionId fileId mimeType)) := by
      simp [uploadFile, uploadFileWith, faithfulHead, hp, hk]
    refine ⟨by rw [h1], ?_, ?_, fun _ => by rw [h1], fun h => absurd hk h, ?_⟩
    · rw [h1]
      simp [uploadFile, uploadFileWith, faithfulHead, hp, hk]
    · rw [h1]
      simp [uploadFile, uploadFileWith, faithfulHead, hp, hk]
    · intro name code hn hc
      simp [uploadFileWith, hp, hn, hc]
  · have h1 : uploadFile cfg st0 sessionId fileId dataURL mimeType =
        (st0 ++ [fileKey sessionId fileId mimeType],
         UploadResult.ok (cdnBase cfg ++ "/" ++ fileKey sessionId fileId mimeType)) := by
      simp [uploadFile, uploadFileWith, faithfulHead, hp, hk]
    have hk2 : fileKey sessionId fileId mimeType ∈
        st0 ++ [fileKey sessionId fileId mimeType] := by simp
    refine ⟨by rw [h1], ?_, ?_, fun h => absurd h hk, fun _ => by rw [h1], ?_⟩
    · rw [h1]
      simp [uploadFile, uploadFileWith, faithfulHead, hp, hk2]
    · rw [h1]
      simp [uploadFile, uploadFileWith, faithfulHead, hp, hk2]
    · intro name code hn hc
      simp [uploadFileWith, hp, hn, hc]

/-- C2 witness: a concrete PNG dataURL on an empty backend. -/
theorem claim2_witness :
    (uploadFile ⟨"bkt", "nyc3"⟩ [] "s1" "f1" "data:image/png;base64,AAAA" "image/png").2 =
      UploadResult.ok (cdnBase ⟨"bkt", "nyc3"⟩ ++ "/" ++ fileKey "s1" "f1" "image/png") :=
  (claim2_upload_idempotent_dedup ⟨"bkt", "nyc3"⟩ [] "s1" "f1"
    "data:image/png;base64,AAAA" "image/png" (by decide)).1

/- Association-list lemmas for the session registry. -/

theorem find?_map_set_self (l : List (String × Session)) (sid : String) (s : Session)
    (h : (l.find? (fun p => p.1 == sid)).isSome = true) :
    (l.map (fun p => if p.1 == sid then (sid, s) else p)).find? (fun p => p.1 == sid)
      = some (sid, s) := by
  induction l with
  | nil => simp at h
  | cons a rest ih =>
    rw [List.map_cons]
    by_cases ha : (a.1 == sid) = true
    · rw [if_pos ha]
      exact List.find?_cons_of_pos _ (by simp)
    · rw [if_neg ha, List.find?_cons_of_neg _ (by simpa using ha)]
      rw [List.find?_cons_of_neg _ (by simpa using ha)] at h
      exact ih h

theorem find?_map_set_other (l : List (String × Session)) (sid sid' : String)
    (s : Session) (hne : sid ≠ sid') :
    (l.map (fun p => if p.1 == sid then (sid, s) else p)).find? (fun p => p.1 == sid')
      = l.find? (fun p => p.1 == sid') := by
  induction l with
  | nil => rfl
  | cons a rest ih =>
    rw [List.map_cons]
    by_cases ha : (a.1 == sid) = true
    · have ha' : a.1 = sid := by simpa using ha
      rw [if_pos ha]
      rw [List.find?_cons_of_neg _ (by simp [hne]),
        List.find?_cons_of_neg _ (by simp [ha', hne])]
      exact ih
    · rw [if_neg ha]
      by_cases hb : (a.1 == sid') = true
      · rw [@List.find?_cons_of_pos _ (fun p => p.1 == sid') a _ hb,
          @List.find?_cons_of_pos _ (fun p => p.1 == sid') a _ hb]
      · rw [List.find?_cons_of_neg _ (by simpa using hb),
          List.find?_cons_of_neg _ (by simpa using hb)]
        exact ih

theorem find?_filter_del_self (l : List (String × Session)) (sid : String) :
    (l.filter (fun p => !(p.1 == sid))).find? (fun p => p.1 == sid) = none := by
  induction l with
  | nil => rfl
  | cons a rest ih =>
    by_cases ha : (a.1 == sid) = true
    · rw [List.filter_cons_of_neg (by simpa using ha)]
      exact ih
    · rw [List.filter_cons_of_pos (by simpa using ha),
        List.find?_cons_of_neg _ (by simpa using ha)]
      exact ih

theorem find?_filter_del_other (l : List (String × Session)) (sid sid' : String)
    (hne : sid ≠ sid') :
    (l.filter (fun p => !(p.1 == sid))).find? (fun p => p.1 == sid')
      = l.find? (fun p => p.1 == sid') := by
  induction l with
  | nil => rfl
  | cons a rest ih =>
    by_cases ha : (a.1 == sid) = true
    · have ha' : a.1 = sid := by simpa using ha
      rw [List.filter_cons_of_neg (by simpa using ha),
        List.find?_cons_of_neg _ (by simp [ha', hne])]
      exact ih
    · rw [List.filter_cons_of_pos (by simpa using ha)]
      by_cases hb : (a.1 == sid') = true
      · rw [@List.find?_cons_of_pos _ (fun p => p.1 == sid') a _ hb,
          @List.find?_cons_of_pos _ (fun p => p.1 == sid') a _ hb]
      · rw [List.find?_cons_of_neg _ (by simpa using hb),
          List.find?_cons_of_neg _ (by simpa using hb)]
        exact ih

/- Registry-level lemmas. -/

theorem lookupSession_setSession_self (r : Reg) (sid : String) (s : Session)
    (h : (lookupSession r sid).isSome = true) :
    lookupSession (setSession r sid s) sid = some s := by
  unfold lookupSession at h ⊢
  unfold setSession
  rw [find?_map_set_self r.sessions sid s (by
    cases hf : r.sessions.find? (fun p => p.1 == sid) with
    | none => rw [hf] at h; simp at h
    | some p => rfl)]
  rfl

theorem lookupSession_setSession_other (r : Reg) (sid sid' : String) (s : Session)
    (hne : sid ≠ sid') :
    lookupSession (setSession r sid s) sid' = lookupSession r sid' := by
  unfold lookupSession setSession
  rw [find?_map_set_other r.sessions sid sid' s hne]

theorem lookupSession_delSession_self (r : Reg) (sid : String) :
    lookupSession (delSession r sid) sid = none := by
  unfold lookupSession delSession
  rw [find?_filter_del_self r.sessions sid]
  rfl

theorem lookupSession_delSession_other (r : Reg) (sid sid' : String)
    (hne : sid ≠ sid') :
    lookupSession (delSession r sid) sid' = lookupSession r sid' := by
  unfold lookupSession delSession
  rw [find?_filter_del_other r.sessions sid sid' hne]

theorem lookupSession_regGet_self (r : Reg) (sid : String) :
    ∃ s0, lookupSession (regGet r sid) sid = some s0 := by
  unfold regGet
  cases h : lookupSession r sid with
  | some s => exact ⟨s, h⟩
  | none =>
    refine ⟨freshSession, ?_⟩
    unfold lookupSession at h ⊢
    rw [List.find?_append]
    have hf : r.sessions.find? (fun p => p.1 == sid) = none := by
      cases hf : r.sessions.find? (fun p => p.1 == sid) with
      | none => rfl
      | some p => rw [hf] at h; simp at h
    rw [hf]
    simp [List.find?]

theorem lookupSession_regGet_other (r : Reg) (sid sid' : String)
    (hne : sid ≠ sid') :
    lookupSession (regGet r sid) sid' = lookupSession r sid' := by
  unfold regGet
  cases h : lookupSession r sid with
  | some s => rfl
  | none =>
    unfold lookupSession
    rw [List.find?_append]
    have : List.find? (fun p => p.1 == sid') [(sid, freshSession)] = none :=
      List.find?_cons_of_neg _ (by simp [hne])
    rw [this]
    simp

theorem regGet_timers (r : Reg) (sid : String) :
    (regGet r sid).timers = r.timers := by
  unfold regGet
  cases lookupSession r sid <;> rfl

/- Branch equations for the registry handlers. -/

theorem gClose_none (r : Reg) (sid : String) (cid t : Nat)
    (h : lookupSession r sid = none) : gClose r sid cid t = r := by
  simp [gClose, h]

theorem gClose_some (r : Reg) (sid : String) (cid t : Nat) (s : Session)
    (h : lookupSession r sid = some s) :
    gClose r sid cid t =
      (if (s.clients.filter (fun c => !(c.id == cid))).isEmpty then
        { setSession r sid
            { s with clients := s.clients.filter (fun c => !(c.id == cid)) } with
          timers := r.timers ++ [(sid, t + IDLEMS)] }
       else setSession r sid
         { s with clients := s.clients.filter (fun c => !(c.id == cid)) }) := by
  have hst : ∀ (s0 : Session), (setSession r sid s0).timers = r.timers := fun _ => rfl
  simp [gClose, h, hst]

theorem gConnect_some (r : Reg) (sid : String) (cid : Nat) (s : Session)
    (h : lookupSession (regGet r sid) sid = some s) :
    gConnect r sid cid =
      setSession (regGet r sid) sid { s with clients := s.clients ++ [⟨cid, WSOPEN⟩] } := by
  simp [gConnect, h]

theorem gConnect_none (r : Reg) (sid : String) (cid : Nat)
    (h : lookupSession (regGet r sid) sid = none) :
    gConnect r sid cid = regGet r sid := by
  simp [gConnect, h]

theorem gFire_skip (r : Reg) (sid : String) (sched t : Nat)
    (h : ¬((sid, sched) ∈ r.timers ∧ sched ≤ t)) :
    gFire r sid sched t = r := by
  simp only [gFire]
  rw [if_neg h]

theorem gFire_due_none (r : Reg) (sid : String) (sched t : Nat)
    (hcond : (sid, sched) ∈ r.timers ∧ sched ≤ t)
    (h : lookupSession { r with timers := r.timers.erase (sid, sched) } sid = none) :
    gFire r sid sched t = { r with timers := r.timers.erase (sid, sched) } := by
  simp only [gFire]
  rw [if_pos hcond]
  simp [h]

theorem gFire_due_some (r : Reg) (sid : String) (sched t : Nat) (s : Session)
    (hcond : (sid, sched) ∈ r.timers ∧ sched ≤ t)
    (h : lookupSession { r with timers := r.timers.erase (sid, sched) } sid = some s) :
    gFire r sid sched t =
      (if s.clients.isEmpty then
        delSession { r with timers := r.timers.erase (sid, sched) } sid
       else { r with timers := r.timers.erase (sid, sched) }) := by
  simp only [gFire]
  rw [if_pos hcond]
  simp [h]

/-- A step whose event does not mention `sid` changes neither the registry
entry of `sid` nor the pending timers of `sid`. -/
theorem gstep_frame (r : Reg) (t : Nat) (e : GEvent) (sid : String)
    (he : mentionsSid sid e = false) :
    lookupSession (gstep r (t, e)) sid = lookupSession r sid ∧
    ∀ x : Nat, ((sid, x) ∈ (gstep r (t, e)).timers ↔ (sid, x) ∈ r.timers) := by
  cases e with
  | touch sid' =>
    have hne : sid' ≠ sid := by simpa [mentionsSid] using he
    refine ⟨lookupSession_regGet_other r sid' sid hne, fun x => ?_⟩
    show (sid, x) ∈ (regGet r sid').timers ↔ (sid, x) ∈ r.timers
    rw [regGet_timers]
  | connect sid' cid =>
    have hne : sid' ≠ sid := by simpa [mentionsSid] using he
    have hg : gstep r (t, GEvent.connect sid' cid) = gConnect r sid' cid := rfl
    rw [hg]
    cases h : lookupSession (regGet r sid') sid' with
    | none =>
      rw [gConnect_none r sid' cid h]
      exact ⟨lookupSession_regGet_other r sid' sid hne, fun x => by rw [regGet_timers]⟩
    | some s =>
      rw [gConnect_some r sid' cid s h]
      refine ⟨?_, fun x => ?_⟩
      · rw [lookupSession_setSession_other _ sid' sid _ hne,
          lookupSession_regGet_other r sid' sid hne]
      · show (sid, x) ∈ (regGet r sid').timers ↔ (sid, x) ∈ r.timers
        rw [regGet_timers]
  | close sid' cid =>
    have hne : sid' ≠ sid := by simpa [mentionsSid] using he
    have hg : gstep r (t, GEvent.close sid' cid) = gClose r sid' cid t := rfl
    rw [hg]
    cases h : lookupSession r sid' with
    | none =>
      rw [gClose_none r sid' cid t h]
      exact ⟨rfl, fun x => Iff.rfl⟩
    | some s =>
      rw [gClose_some r sid' cid t s h]
      by_cases hemp : (s.clients.filter (fun c => !(c.id == cid))).isEmpty
      · rw [if_pos hemp]
        refine ⟨lookupSession_setSession_other _ sid' sid _ hne, fun x => ?_⟩
        simp [Prod.ext_iff, Ne.symm hne]
      · rw [if_neg hemp]
        exact ⟨lookupSession_setSession_other _ sid' sid _ hne, fun x => Iff.rfl⟩
  | fire sid' sched =>
    have hne : sid' ≠ sid := by simpa [mentionsSid] using he
    have hg : gstep r (t, GEvent.fire sid' sched) = gFire r sid' sched t := rfl
    rw [hg]
    by_cases hcond : (sid', sched) ∈ r.timers ∧ sched ≤ t
    · have herase : ∀ x : Nat,
          ((sid, x) ∈ r.timers.erase (sid', sched) ↔ (sid, x) ∈ r.timers) :=
        fun x => List.mem_erase_of_ne (by simp [Prod.ext_iff, Ne.symm hne])
      cases h : lookupSession { r with timers := r.timers.erase (sid', sched) } sid' with
      | none =>
        rw [gFire_due_none r sid' sched t hcond h]
        exact ⟨rfl, herase⟩
      | some s =>
        rw [gFire_due_some r sid' sched t s hcond h]
        by_cases hemp : s.clients.isEmpty
        · rw [if_pos hemp]
          exact ⟨lookupSession_delSession_other _ sid' sid hne, fun x => herase x⟩
        · rw [if_neg hemp]
          exact ⟨rfl, herase⟩
    · rw [gFire_skip r sid' sched t hcond]
      exact ⟨rfl, fun x => Iff.rfl⟩

/-- Running a trace that never mentions `sid` preserves `sid`'s registry
entry and pending timers. -/
theorem grun_frame (mid : List (Nat × GEvent)) (r : Reg) (sid : String)
    (hmid : ∀ te ∈ mid, mentionsSid sid te.2 = false) :
    lookupSession (grun r mid) sid = lookupSession r sid ∧
    ∀ x : Nat, ((sid, x) ∈ (grun r mid).timers ↔ (sid, x) ∈ r.timers) := by
  induction mid generalizing r with
  | nil => exact ⟨rfl, fun _ => Iff.rfl⟩
  | cons te rest ih =>
    have h1 := gstep_frame r te.1 te.2 sid (hmid te (by simp))
    have h2 := ih (gstep r te) (fun te' h => hmid te' (by simp [h]))
    have hg : gstep r (te.1, te.2) = gstep r te := rfl
    rw [hg] at h1
    exact ⟨h2.1.trans h1.1, fun x => (h2.2 x).trans (h1.2 x)⟩

/-- A close that empties the client set schedules the deletion timer for
`t + IDLEMS`. -/
theorem gstep_close_schedules (r : Reg) (sid : String) (cid : Nat) (t : Nat)
    (s' : Session)
    (h : lookupSession (gstep r (t, GEvent.close sid cid)) sid = some s')
    (hempty : s'.clients = []) :
    (sid, t + IDLEMS) ∈ (gstep r (t, GEvent.close sid cid)).timers := by
  have hg : gstep r (t, GEvent.close sid cid) = gClose r sid cid t := rfl
  rw [hg] at h ⊢
  cases hr : lookupSession r sid with
  | none =>
    rw [gClose_none r sid cid t hr] at h
    exact absurd (hr.symm.trans h) (by simp)
  | some s =>
    rw [gClose_some r sid cid t s hr] at h ⊢
    by_cases hemp : (s.clients.filter (fun c => !(c.id == cid))).isEmpty
    · rw [if_pos hemp]
      simp
    · rw [if_neg hemp] at h
      rw [lookupSession_setSession_self r sid _ (by rw [hr]; rfl)] at h
      cases h
      exact absurd (by rw [List.isEmpty_iff]; exact hempty) hemp

/-- A due, pending deletion timer firing on a session whose client set is
empty removes the session from the registry. -/
theorem gstep_fire_deletes (r : Reg) (sid : String) (sched t' : Nat) (s : Session)
    (hmem : (sid, sched) ∈ r.timers) (hle : sched ≤ t')
    (hl : lookupSession r sid = some s) (hemp : s.clients = []) :
    lookupSession (gstep r (t', GEvent.fire sid sched)) sid = none := by
  have hg : gstep r (t', GEvent.fire sid sched) = gFire r sid sched t' := rfl
  have hl1 : lookupSession { r with timers := r.timers.erase (sid, sched) } sid
      = some s := hl
  rw [hg, gFire_due_some r sid sched t' s ⟨hmem, hle⟩ hl1,
    if_pos (by rw [List.isEmpty_iff]; exact hemp)]
  exact lookupSession_delSession_self _ sid

/-- C4 counterexample: a session created by an HTTP access (`getSession`)
with no WebSocket client ever never schedules a deletion timer, so it is
still in the registry when a hypothetical timer fire is attempted 301
seconds later — removal is only ever performed by a timer scheduled at a
close, and none exists. -/
theorem claim4_counterexample :
    lookupSession (grun regInit
      [(0, GEvent.touch "s"), (301000, GEvent.fire "s" 300000)]) "s"
      = some freshSession ∧
    (grun regInit [(0, GEvent.touch "s"), (301000, GEvent.fire "s" 300000)]).timers
      = [] := by
  decide

/-- C4 (amended): a session whose client set becomes empty through a
connection close is scheduled for deletion `IDLEMS` (300s) later; when
that timer fires (at or after its due time) with the session still
clientless — no event concerning it having occurred in between — the
session is removed.  Conversely a timer firing on a session that has a
client leaves it untouched (emptiness is re-checked at fire time), and a
connect always leaves the session present with a nonempty client set.
(Sessions that are created by HTTP access and never gain a client are
never garbage-collected: no timer is ever scheduled for them.) -/
theorem claim4_amended_gc_correctness :
    (∀ (r : Reg) (sid : String) (cid : Nat) (t : Nat)
       (mid : List (Nat × GEvent)) (t' : Nat) (s' : Session),
      lookupSession (gstep r (t, GEvent.close sid cid)) sid = some s' →
      s'.clients = [] →
      (∀ te ∈ mid, mentionsSid sid te.2 = false) →
      t + IDLEMS ≤ t' →
      lookupSession (gstep (grun (gstep r (t, GEvent.close sid cid)) mid)
        (t', GEvent.fire sid (t + IDLEMS))) sid = none) ∧
    (∀ (r : Reg) (sid : String) (sched t' : Nat) (s : Session),
      lookupSession r sid = some s → s.clients ≠ [] →
      lookupSession (gstep r (t', GEvent.fire sid sched)) sid = some s) ∧
    (∀ (r : Reg) (sid : String) (cid : Nat) (t : Nat),
      ∃ s, lookupSession (gstep r (t, GEvent.connect sid cid)) sid = some s ∧
        s.clients ≠ []) := by
  refine ⟨?_, ?_, ?_⟩
  · intro r sid cid t mid t' s' hclose hempty hmid hle
    have htimer : (sid, t + IDLEMS) ∈ (gstep r (t, GEvent.close sid cid)).timers :=
      gstep_close_schedules r sid cid t s' hclose hempty
    obtain ⟨hlk, htm⟩ := grun_frame mid (gstep r (t, GEvent.close sid cid)) sid hmid
    exact gstep_fire_deletes _ sid (t + IDLEMS) t' s'
      ((htm (t + IDLEMS)).mpr htimer) hle (hlk.trans hclose) hempty
  · intro r sid sched t' s hl hne
    have hg : gstep r (t', GEvent.fire sid sched) = gFire r sid sched t' := rfl
    rw [hg]
    by_cases hcond : (sid, sched) ∈ r.timers ∧ sched ≤ t'
    · have hl1 : lookupSession { r with timers := r.timers.erase (sid, sched) } sid
          = some s := hl
      rw [gFire_due_some r sid sched t' s hcond hl1,
        if_neg (by rw [List.isEmpty_iff]; exact hne)]
      exact hl1
    · rw [gFire_skip r sid sched t' hcond]
      exact hl
  · intro r sid cid t
    obtain ⟨s0, h0⟩ := lookupSession_regGet_self r sid
    have hg : gstep r (t, GEvent.connect sid cid) = gConnect r sid cid := rfl
    refine ⟨{ s0 with clients := s0.clients ++ [⟨cid, WSOPEN⟩] }, ?_, by simp⟩
    rw [hg, gConnect_some r sid cid s0 h0]
    exact lookupSession_setSession_self _ sid _ (by rw [h0]; rfl)

/-- C4 witness: connect client 9 to session `s`, close it at t=5 (timer
due at 300005), touch an unrelated session, fire the timer at 300010: the
session is gone. -/
theorem claim4_witness :
    lookupSession (gstep (grun (gstep (gstep regInit (0, GEvent.connect "s" 9))
        (5, GEvent.close "s" 9)) [(6, GEvent.touch "x")])
      (300010, GEvent.fire "s" (5 + IDLEMS))) "s" = none :=
  claim4_amended_gc_correctness.1 (gstep regInit (0, GEvent.connect "s" 9)) "s" 9 5
    [(6, GEvent.touch "x")] 300010 ⟨some [], none, none, []⟩
    (by decide) (by decide) (by decide) (by decide)
